import Mathlib

/-!
Shallow embedding of the motion-and-collision core of
`src/driving-game/src/App.tsx` (the driving-game application).

The TypeScript source works with IEEE doubles; the embedding models the
arithmetic over the reals, which is the idealised semantics the
specification describes.  Key state (`keysPressed : Set<string>`) is
modelled as a `Finset String`; the mutable React state
(`lng`, `lat`, `carRotation`, `velocity`) is gathered in `GameState`.
-/

namespace DrivingGame

/-- Speed cap, the constant `maxSpeed = 0.00001` in App.tsx. -/
noncomputable def maxSpeed : ℝ := 0.00001

/-- Per-tick acceleration, the constant `acceleration = 0.0000025` in App.tsx. -/
noncomputable def acceleration : ℝ := 0.0000025

/-- Damping fraction, the constant `deceleration = 0.05` in App.tsx. -/
noncomputable def deceleration : ℝ := 0.05

/-- Snap-to-zero threshold, the literal `0.0000001` in `updateVelocity`. -/
noncomputable def stopThreshold : ℝ := 0.0000001

/-- Collision distance threshold, the literal `0.0001` in `updateCarPosition`. -/
noncomputable def collisionRadius : ℝ := 0.0001

/-- Euclidean magnitude of a 2-D vector, `Math.sqrt(x**2 + y**2)` in App.tsx. -/
noncomputable def speed (v : ℝ × ℝ) : ℝ := Real.sqrt (v.1 ^ 2 + v.2 ^ 2)

/-- The raw direction vector `accelerationVector` built from the held keys:
starting from `[0, 0]`, ArrowUp does `y -= 1`, ArrowDown `y += 1`,
ArrowLeft `x += 1`, ArrowRight `x -= 1`. -/
noncomputable def accelerationVector (keys : Finset String) : ℝ × ℝ :=
  ((if "ArrowLeft" ∈ keys then (1 : ℝ) else 0) +
     (if "ArrowRight" ∈ keys then (-1 : ℝ) else 0),
   (if "ArrowUp" ∈ keys then (-1 : ℝ) else 0) +
     (if "ArrowDown" ∈ keys then (1 : ℝ) else 0))

/-- In-place normalisation of the direction vector: the source divides both
components by the magnitude only when the magnitude is non-zero. -/
noncomputable def normalize (w : ℝ × ℝ) : ℝ × ℝ :=
  if speed w ≠ 0 then (w.1 / speed w, w.2 / speed w) else w

/-- The acceleration-or-deceleration stage of `updateVelocity`: when
`keysPressed.size > 0` the normalised direction scaled by `acceleration`
is added to the previous velocity, otherwise both components are damped
by `(1 - deceleration)`. -/
noncomputable def applyInput (v : ℝ × ℝ) (keys : Finset String) : ℝ × ℝ :=
  let a := normalize (accelerationVector keys)
  if 0 < keys.card then
    (v.1 + a.1 * acceleration, v.2 + a.2 * acceleration)
  else
    (v.1 * (1 - deceleration), v.2 * (1 - deceleration))

/-- The stop-threshold and speed-cap stage of `updateVelocity`: a speed
below `stopThreshold` snaps the vector to `(0, 0)`, a speed above
`maxSpeed` rescales both components by `maxSpeed / speed`. -/
noncomputable def applyLimits (v : ℝ × ℝ) : ℝ × ℝ :=
  if speed v < stopThreshold then (0, 0)
  else if maxSpeed < speed v then
    (v.1 / speed v * maxSpeed, v.2 / speed v * maxSpeed)
  else v

/-- One integration step, the body of `updateVelocity` in App.tsx. -/
noncomputable def updateVelocity (v : ℝ × ℝ) (keys : Finset String) : ℝ × ℝ :=
  applyLimits (applyInput v keys)

/-- The four recognised key names, the array literal in the key handlers. -/
def arrowKeyNames : List String := ["ArrowUp", "ArrowDown", "ArrowLeft", "ArrowRight"]

/-- The key-down handler: an arrow key is added to the held-key set,
any other key is ignored. -/
def handleKeyDown (key : String) (keys : Finset String) : Finset String :=
  if key ∈ arrowKeyNames then insert key keys else keys

/-- The key-up handler: an arrow key is removed from the held-key set,
any other key is ignored. -/
def handleKeyUp (key : String) (keys : Finset String) : Finset String :=
  if key ∈ arrowKeyNames then keys.erase key else keys

/-- The set with all four arrow keys held. -/
def allArrowKeys : Finset String :=
  {"ArrowUp", "ArrowDown", "ArrowLeft", "ArrowRight"}

/-- Two-argument arctangent with the quadrant conventions of JavaScript
`Math.atan2(y, x)` (signed zeros excluded, which ℝ cannot represent). -/
noncomputable def atan2 (y x : ℝ) : ℝ :=
  if 0 < x then Real.arctan (y / x)
  else if x < 0 then
    (if 0 ≤ y then Real.arctan (y / x) + Real.pi
     else Real.arctan (y / x) - Real.pi)
  else
    (if 0 < y then Real.pi / 2 else if y < 0 then -(Real.pi / 2) else 0)

/-- The mutable simulation state of the component: map centre
(`lng`, `lat`), sprite rotation `carRotation`, and current `velocity`. -/
structure GameState where
  lng : ℝ
  lat : ℝ
  carRotation : ℝ
  velocity : ℝ × ℝ

/-- The body of `updateCarPosition` in App.tsx: the new position is the
previous one minus the velocity; the rotation is recomputed as
`atan2(vy, -vx) * 180 / π` whenever the velocity is non-zero; the
velocity is zeroed when some obstacle lies strictly within
`collisionRadius` of the new position, and kept otherwise. -/
noncomputable def updateCarPosition (s : GameState) (obstacles : List (ℝ × ℝ)) :
    GameState :=
  let newLng := s.lng - s.velocity.1
  let newLat := s.lat - s.velocity.2
  { lng := newLng
    lat := newLat
    carRotation :=
      if s.velocity.1 ≠ 0 ∨ s.velocity.2 ≠ 0 then
        atan2 s.velocity.2 (-s.velocity.1) * (180 / Real.pi)
      else s.carRotation
    velocity :=
      if ∃ o ∈ obstacles,
          Real.sqrt ((newLng - o.1) ^ 2 + (newLat - o.2) ^ 2) < collisionRadius
      then (0, 0) else s.velocity }

/-- One full tick with no key held: the game loop runs `updateVelocity`
then `updateCarPosition`, the integrator feeding the resolver. -/
noncomputable def idleTick (obstacles : List (ℝ × ℝ)) (s : GameState) : GameState :=
  updateCarPosition { s with velocity := updateVelocity s.velocity ∅ } obstacles

/-! ### Basic lemmas about `speed` -/

theorem speed_nonneg (v : ℝ × ℝ) : 0 ≤ speed v := Real.sqrt_nonneg _

theorem speed_zero : speed (0, 0) = 0 := by
  simp [speed]

theorem sq_add_sq_eq_speed_sq (v : ℝ × ℝ) : v.1 ^ 2 + v.2 ^ 2 = speed v ^ 2 :=
  (Real.sq_sqrt (by positivity)).symm

theorem speed_pos_of_ne (v : ℝ × ℝ) (hv : v ≠ (0, 0)) : 0 < speed v := by
  have h1 : v.1 ≠ 0 ∨ v.2 ≠ 0 := by
    by_contra h
    push_neg at h
    exact hv (Prod.ext h.1 h.2)
  have h2 : 0 < v.1 ^ 2 + v.2 ^ 2 := by
    rcases h1 with h | h
    · have hb := sq_nonneg v.2
      have ha : 0 < v.1 ^ 2 := by positivity
      linarith
    · have ha := sq_nonneg v.1
      have hb : 0 < v.2 ^ 2 := by positivity
      linarith
  exact Real.sqrt_pos.mpr h2

theorem speed_mulRight (v : ℝ × ℝ) (c : ℝ) :
    speed (v.1 * c, v.2 * c) = speed v * |c| := by
  have h : (v.1 * c) ^ 2 + (v.2 * c) ^ 2 = (v.1 ^ 2 + v.2 ^ 2) * c ^ 2 := by ring
  rw [speed, h, Real.sqrt_mul (by positivity), Real.sqrt_sq_eq_abs]
  rfl

theorem speed_xAxis (x : ℝ) : speed (x, 0) = |x| := by
  simp [speed, Real.sqrt_sq_eq_abs]

theorem speed_yAxis (y : ℝ) : speed (0, y) = |y| := by
  simp [speed, Real.sqrt_sq_eq_abs]

theorem speed_rescale (v : ℝ × ℝ) (h : 0 < speed v) :
    speed (v.1 / speed v * maxSpeed, v.2 / speed v * maxSpeed) = maxSpeed := by
  have hM : (0 : ℝ) < maxSpeed := by norm_num [maxSpeed]
  have e : (v.1 / speed v * maxSpeed, v.2 / speed v * maxSpeed)
      = (v.1 * (maxSpeed / speed v), v.2 * (maxSpeed / speed v)) :=
    Prod.ext_iff.mpr ⟨by ring, by ring⟩
  rw [e, speed_mulRight, abs_of_pos (div_pos hM h), mul_comm,
    div_mul_cancel₀ _ (ne_of_gt h)]

theorem applyInput_empty (v : ℝ × ℝ) :
    applyInput v ∅ = (v.1 * (1 - deceleration), v.2 * (1 - deceleration)) := by
  simp [applyInput]

theorem updateVelocity_zero : updateVelocity (0, 0) ∅ = (0, 0) := by
  rw [updateVelocity, applyInput_empty]
  have e : ((0 : ℝ) * (1 - deceleration), (0 : ℝ) * (1 - deceleration))
      = ((0 : ℝ), (0 : ℝ)) := by norm_num
  rw [e, applyLimits, if_pos]
  rw [speed_zero]
  norm_num [stopThreshold]

/-! ### Claim theorems -/

/-- C1: for every previous velocity and every input state, the velocity
returned by one integration step (`updateVelocity`) has Euclidean
magnitude at most `maxSpeed`. -/
theorem C1_speed_le_maxSpeed (v : ℝ × ℝ) (keys : Finset String) :
    speed (updateVelocity v keys) ≤ maxSpeed := by
  rw [updateVelocity]
  set w := applyInput v keys with hw
  rw [applyLimits]
  by_cases h1 : speed w < stopThreshold
  · rw [if_pos h1, speed_zero]
    norm_num [maxSpeed]
  · rw [if_neg h1]
    by_cases h2 : maxSpeed < speed w
    · rw [if_pos h2]
      have hpos : 0 < speed w := lt_trans (by norm_num [maxSpeed]) h2
      rw [speed_rescale w hpos]
    · rw [if_neg h2]
      exact le_of_not_lt h2

theorem normalize_zero : normalize (0, 0) = (0, 0) := by
  rw [normalize]
  simp [speed_zero]

theorem accelerationVector_all : accelerationVector allArrowKeys = (0, 0) := by
  have h1 : "ArrowLeft" ∈ allArrowKeys := by decide
  have h2 : "ArrowRight" ∈ allArrowKeys := by decide
  have h3 : "ArrowUp" ∈ allArrowKeys := by decide
  have h4 : "ArrowDown" ∈ allArrowKeys := by decide
  rw [accelerationVector, if_pos h1, if_pos h2, if_pos h3, if_pos h4]
  norm_num

theorem applyInput_all (v : ℝ × ℝ) : applyInput v allArrowKeys = v := by
  have hcard : 0 < allArrowKeys.card := by decide
  simp only [applyInput, accelerationVector_all, normalize_zero]
  rw [if_pos hcard]
  simp

/-- C2 counterexample: with all four arrow keys held and previous velocity
`(0.000005, 0)`, the acceleration-or-deceleration stage leaves the
velocity unchanged at `(0.000005, 0)`; it does NOT multiply the
components by `(1 - deceleration)` as the claim states. -/
theorem C2_counterexample :
    applyInput (0.000005, 0) allArrowKeys
      ≠ ((0.000005 : ℝ) * (1 - deceleration), (0 : ℝ) * (1 - deceleration)) := by
  rw [applyInput_all]
  intro h
  have h1 : (0.000005 : ℝ) = 0.000005 * (1 - deceleration) := congrArg Prod.fst h
  rw [deceleration] at h1
  norm_num at h1

/-- C2 (amended): with all four arrow keys held the net direction vector
is `(0, 0)` and acceleration contributes nothing, but because the key set
is nonempty the code takes the acceleration branch, so the previous
velocity passes through the acceleration-or-deceleration stage UNCHANGED
(deceleration is not applied); the whole integration step reduces to the
stop-threshold and cap stage applied to the previous velocity. -/
theorem C2_allKeys_velocity_unchanged (v : ℝ × ℝ) :
    accelerationVector allArrowKeys = (0, 0) ∧
    applyInput v allArrowKeys = v ∧
    updateVelocity v allArrowKeys = applyLimits v := by
  refine ⟨accelerationVector_all, applyInput_all v, ?_⟩
  rw [updateVelocity, applyInput_all]

theorem updateCarPosition_velocity_eq (s : GameState) (obstacles : List (ℝ × ℝ)) :
    (updateCarPosition s obstacles).velocity
      = if ∃ o ∈ obstacles,
            Real.sqrt ((s.lng - s.velocity.1 - o.1) ^ 2
              + (s.lat - s.velocity.2 - o.2) ^ 2) < collisionRadius
        then (0, 0) else s.velocity := rfl

/-- C3: the position-resolution step sets the new position to the previous
one minus the velocity; when some obstacle lies strictly within
`collisionRadius` of the new position the resulting velocity is exactly
`(0, 0)` while the position keeps the just-computed value, and when no
obstacle is strictly within the radius the velocity is unchanged. -/
theorem C3_collision_zeroes_velocity (s : GameState) (obstacles : List (ℝ × ℝ)) :
    (updateCarPosition s obstacles).lng = s.lng - s.velocity.1 ∧
    (updateCarPosition s obstacles).lat = s.lat - s.velocity.2 ∧
    ((∃ o ∈ obstacles,
        Real.sqrt ((s.lng - s.velocity.1 - o.1) ^ 2
          + (s.lat - s.velocity.2 - o.2) ^ 2) < collisionRadius) →
      (updateCarPosition s obstacles).velocity = (0, 0)) ∧
    (¬ (∃ o ∈ obstacles,
        Real.sqrt ((s.lng - s.velocity.1 - o.1) ^ 2
          + (s.lat - s.velocity.2 - o.2) ^ 2) < collisionRadius) →
      (updateCarPosition s obstacles).velocity = s.velocity) := by
  refine ⟨rfl, rfl, fun h => ?_, fun h => ?_⟩
  · rw [updateCarPosition_velocity_eq, if_pos h]
  · rw [updateCarPosition_velocity_eq, if_neg h]

/-- C3 witness: starting at the origin with zero velocity and a single
obstacle at the origin, the obstacle is strictly within the collision
radius and the resulting velocity is `(0, 0)`. -/
theorem C3_witness :
    (updateCarPosition ⟨0, 0, 0, (0, 0)⟩ [((0 : ℝ), (0 : ℝ))]).velocity = (0, 0) := by
  refine (C3_collision_zeroes_velocity ⟨0, 0, 0, (0, 0)⟩ [((0 : ℝ), (0 : ℝ))]).2.2.1 ?_
  refine ⟨(0, 0), by simp, ?_⟩
  norm_num [collisionRadius]

/-- C4: the position-resolution step computes the new position as the
previous position minus the velocity, componentwise, regardless of the
obstacle list. -/
theorem C4_position_is_subtraction (s : GameState) (obstacles : List (ℝ × ℝ)) :
    (updateCarPosition s obstacles).lng = s.lng - s.velocity.1 ∧
    (updateCarPosition s obstacles).lat = s.lat - s.velocity.2 :=
  ⟨rfl, rfl⟩

/-- C9: the velocity produced by the position-resolution step is either
the incoming velocity unchanged or exactly `(0, 0)`, and its speed never
exceeds the incoming speed. -/
theorem C9_resolver_velocity_cases (s : GameState) (obstacles : List (ℝ × ℝ)) :
    ((updateCarPosition s obstacles).velocity = s.velocity ∨
      (updateCarPosition s obstacles).velocity = (0, 0)) ∧
    speed (updateCarPosition s obstacles).velocity ≤ speed s.velocity := by
  by_cases h : ∃ o ∈ obstacles,
      Real.sqrt ((s.lng - s.velocity.1 - o.1) ^ 2
        + (s.lat - s.velocity.2 - o.2) ^ 2) < collisionRadius
  · rw [updateCarPosition_velocity_eq, if_pos h]
    refine ⟨Or.inr rfl, ?_⟩
    rw [speed_zero]
    exact speed_nonneg s.velocity
  · rw [updateCarPosition_velocity_eq, if_neg h]
    exact ⟨Or.inl rfl, le_refl _⟩

theorem updateCarPosition_rotation_eq (s : GameState) (obstacles : List (ℝ × ℝ)) :
    (updateCarPosition s obstacles).carRotation
      = if s.velocity.1 ≠ 0 ∨ s.velocity.2 ≠ 0 then
          atan2 s.velocity.2 (-s.velocity.1) * (180 / Real.pi)
        else s.carRotation := rfl

theorem velocity_ne_iff (v : ℝ × ℝ) : v ≠ (0, 0) ↔ v.1 ≠ 0 ∨ v.2 ≠ 0 := by
  rw [Ne, Prod.ext_iff, not_and_or]

theorem idleTick_invariant (obstacles : List (ℝ × ℝ)) (s : GameState)
    (h : s.velocity = (0, 0)) :
    (idleTick obstacles s).velocity = (0, 0) ∧
    (idleTick obstacles s).carRotation = s.carRotation := by
  have hidle : idleTick obstacles s
      = updateCarPosition { s with velocity := ((0 : ℝ), (0 : ℝ)) } obstacles := by
    rw [idleTick, h, updateVelocity_zero]
  constructor
  · rw [hidle, updateCarPosition_velocity_eq]
    split <;> rfl
  · have hng : ¬ (({ s with velocity := ((0 : ℝ), (0 : ℝ)) } : GameState).velocity.1 ≠ 0 ∨
        ({ s with velocity := ((0 : ℝ), (0 : ℝ)) } : GameState).velocity.2 ≠ 0) := by
      simp
    rw [hidle, updateCarPosition_rotation_eq, if_neg hng]

/-- C5: whenever the velocity is non-zero the position-resolution step
recomputes the rotation as `atan2(vy, -vx)` converted to degrees; when
the velocity is exactly `(0, 0)` the previously computed rotation is
retained, and it keeps that value across every subsequent idle tick. -/
theorem C5_heading (s : GameState) (obstacles : List (ℝ × ℝ)) :
    (s.velocity ≠ (0, 0) →
      (updateCarPosition s obstacles).carRotation
        = atan2 s.velocity.2 (-s.velocity.1) * (180 / Real.pi)) ∧
    (s.velocity = (0, 0) →
      ∀ n : ℕ, ((idleTick obstacles)^[n] s).carRotation = s.carRotation) := by
  constructor
  · intro h
    rw [updateCarPosition_rotation_eq, if_pos ((velocity_ne_iff s.velocity).mp h)]
  · intro h n
    have key : ∀ m : ℕ, ((idleTick obstacles)^[m] s).velocity = (0, 0) ∧
        ((idleTick obstacles)^[m] s).carRotation = s.carRotation := by
      intro m
      induction m with
      | zero => exact ⟨h, rfl⟩
      | succ m ih =>
        rw [Function.iterate_succ_apply']
        obtain ⟨h1, h2⟩ := idleTick_invariant obstacles _ ih.1
        exact ⟨h1, h2.trans ih.2⟩
    exact (key n).2

/-- C5 witness: a state with zero velocity and rotation `7` keeps rotation
`7` after two idle ticks with no obstacles. -/
theorem C5_witness :
    ((idleTick [])^[2] ⟨1, 2, 7, (0, 0)⟩ : GameState).carRotation = 7 :=
  (C5_heading ⟨1, 2, 7, (0, 0)⟩ []).2 rfl 2

/-- C6: with no key held (deceleration `0.05` lies in `(0, 1)`), a
non-zero velocity loses speed on every step while the damped speed stays
at or above `stopThreshold` and the result stays non-zero; on the first
step where the damped speed falls strictly below `stopThreshold` the
velocity becomes exactly `(0, 0)`, and `(0, 0)` is a fixed point of every
further no-key step. -/
theorem C6_decay (v : ℝ × ℝ) (hv : v ≠ (0, 0)) :
    (0 < deceleration ∧ deceleration < 1) ∧
    (stopThreshold ≤ speed (applyInput v ∅) →
      speed (updateVelocity v ∅) < speed v ∧ updateVelocity v ∅ ≠ (0, 0)) ∧
    (speed (applyInput v ∅) < stopThreshold → updateVelocity v ∅ = (0, 0)) ∧
    (∀ n : ℕ, (fun u => updateVelocity u ∅)^[n] ((0 : ℝ), (0 : ℝ))
      = ((0 : ℝ), (0 : ℝ))) := by
  have hsv : 0 < speed v := speed_pos_of_ne v hv
  have hdampeq : speed (applyInput v ∅) = speed v * (1 - deceleration) := by
    rw [applyInput_empty, speed_mulRight,
      abs_of_pos (by norm_num [deceleration] : (0 : ℝ) < 1 - deceleration)]
  have hdamplt : speed (applyInput v ∅) < speed v := by
    rw [hdampeq, deceleration]
    nlinarith [hsv]
  refine ⟨by norm_num [deceleration], fun h => ?_, fun h => ?_, fun n => ?_⟩
  · set w := applyInput v ∅ with hw
    have hwpos : 0 < speed w :=
      lt_of_lt_of_le (by norm_num [stopThreshold]) h
    have hnotlt : ¬ speed w < stopThreshold := not_lt.mpr h
    rw [updateVelocity, ← hw, applyLimits, if_neg hnotlt]
    by_cases hc : maxSpeed < speed w
    · rw [if_pos hc]
      have hsr : speed (w.1 / speed w * maxSpeed, w.2 / speed w * maxSpeed)
          = maxSpeed := speed_rescale w hwpos
      constructor
      · rw [hsr]
        exact lt_trans hc hdamplt
      · intro h0
        rw [h0, speed_zero] at hsr
        rw [maxSpeed] at hsr
        norm_num at hsr
    · rw [if_neg hc]
      constructor
      · exact hdamplt
      · intro h0
        rw [h0, speed_zero] at hwpos
        exact lt_irrefl 0 hwpos
  · rw [updateVelocity, applyLimits, if_pos h]
  · induction n with
    | zero => rfl
    | succ n ih =>
      rw [Function.iterate_succ_apply', ih]
      exact updateVelocity_zero

/-- C6 witness: at velocity `(0.000005, 0)` the damped speed stays above
`stopThreshold`, so one no-key step strictly reduces the speed and keeps
the velocity non-zero. -/
theorem C6_witness :
    speed (updateVelocity (0.000005, 0) ∅) < speed ((0.000005 : ℝ), (0 : ℝ)) ∧
    updateVelocity (0.000005, 0) ∅ ≠ (0, 0) := by
  refine (C6_decay (0.000005, 0) ?_).2.1 ?_
  · intro h0
    have h1 : (0.000005 : ℝ) = 0 := congrArg Prod.fst h0
    norm_num at h1
  · rw [applyInput_empty]
    have he : ((0.000005 : ℝ) * (1 - deceleration), (0 : ℝ) * (1 - deceleration))
        = ((0.00000475 : ℝ), (0 : ℝ)) := by
      rw [deceleration]
      norm_num
    rw [he, speed_xAxis, abs_of_pos (by norm_num : (0 : ℝ) < 0.00000475)]
    norm_num [stopThreshold]

theorem accelerationVector_up :
    accelerationVector {"ArrowUp"} = ((0 : ℝ), (-1 : ℝ)) := by
  have h1 : "ArrowLeft" ∉ ({"ArrowUp"} : Finset String) := by decide
  have h2 : "ArrowRight" ∉ ({"ArrowUp"} : Finset String) := by decide
  have h3 : "ArrowUp" ∈ ({"ArrowUp"} : Finset String) := by decide
  have h4 : "ArrowDown" ∉ ({"ArrowUp"} : Finset String) := by decide
  rw [accelerationVector, if_neg h1, if_neg h2, if_pos h3, if_neg h4]
  norm_num

theorem normalize_up : normalize ((0 : ℝ), (-1 : ℝ)) = ((0 : ℝ), (-1 : ℝ)) := by
  have hs : speed ((0 : ℝ), (-1 : ℝ)) = 1 := by
    rw [speed_yAxis, abs_neg, abs_one]
  rw [normalize, if_pos (by rw [hs]; norm_num), hs]
  norm_num

/-- C7: the raw direction vector is the vector sum of the held keys'
contributions, with Up contributing `(0, -1)`, Down `(0, 1)`,
Left `(1, 0)` and Right `(-1, 0)`; and from velocity `(0, 0)` with only
Up held, one integration step yields exactly `(0, -0.0000025)`. -/
theorem C7_direction_mapping (keys : Finset String) :
    accelerationVector keys
      = (if "ArrowUp" ∈ keys then ((0 : ℝ), (-1 : ℝ)) else 0)
        + (if "ArrowDown" ∈ keys then ((0 : ℝ), (1 : ℝ)) else 0)
        + (if "ArrowLeft" ∈ keys then ((1 : ℝ), (0 : ℝ)) else 0)
        + (if "ArrowRight" ∈ keys then ((-1 : ℝ), (0 : ℝ)) else 0) ∧
    updateVelocity (0, 0) {"ArrowUp"} = ((0 : ℝ), (-0.0000025 : ℝ)) := by
  constructor
  · rw [accelerationVector]
    split_ifs <;> norm_num [Prod.ext_iff]
  · have happly : applyInput (0, 0) {"ArrowUp"} = ((0 : ℝ), (-0.0000025 : ℝ)) := by
      simp only [applyInput, accelerationVector_up, normalize_up]
      rw [if_pos (by decide : 0 < ({"ArrowUp"} : Finset String).card), acceleration]
      norm_num
    have hsd : speed ((0 : ℝ), (-0.0000025 : ℝ)) = 0.0000025 := by
      rw [speed_yAxis, abs_neg, abs_of_pos (by norm_num : (0 : ℝ) < 0.0000025)]
    rw [updateVelocity, happly, applyLimits,
      if_neg (by rw [hsd]; norm_num [stopThreshold]),
      if_neg (by rw [hsd]; norm_num [maxSpeed])]

/-- C8: when the speed after the acceleration-or-deceleration stage
exceeds `maxSpeed` (and is at least `stopThreshold`), the integration
step returns a positive rescaling of that vector whose magnitude is
exactly `maxSpeed`; in particular `(0.00002, 0)` entering the limit stage
becomes exactly `(0.00001, 0)`. -/
theorem C8_cap_rescales (v : ℝ × ℝ) (keys : Finset String)
    (h1 : stopThreshold ≤ speed (applyInput v keys))
    (h2 : maxSpeed < speed (applyInput v keys)) :
    speed (updateVelocity v keys) = maxSpeed ∧
    (∃ c : ℝ, 0 < c ∧
      updateVelocity v keys
        = (c * (applyInput v keys).1, c * (applyInput v keys).2)) ∧
    applyLimits (0.00002, 0) = ((0.00001 : ℝ), (0 : ℝ)) := by
  set w := applyInput v keys with hw
  have hpos : 0 < speed w := lt_trans (by norm_num [maxSpeed]) h2
  have hnotlt : ¬ speed w < stopThreshold := not_lt.mpr h1
  have heq : updateVelocity v keys
      = (w.1 / speed w * maxSpeed, w.2 / speed w * maxSpeed) := by
    rw [updateVelocity, ← hw, applyLimits, if_neg hnotlt, if_pos h2]
  refine ⟨?_, ⟨maxSpeed / speed w,
    div_pos (by norm_num [maxSpeed]) hpos, ?_⟩, ?_⟩
  · rw [heq, speed_rescale w hpos]
  · rw [heq]
    exact Prod.ext_iff.mpr ⟨by ring, by ring⟩
  · have hs : speed ((0.00002 : ℝ), (0 : ℝ)) = 0.00002 := by
      rw [speed_xAxis, abs_of_pos (by norm_num : (0 : ℝ) < 0.00002)]
    rw [applyLimits, if_neg (by rw [hs]; norm_num [stopThreshold]),
      if_pos (by rw [hs]; norm_num [maxSpeed]), hs, maxSpeed]
    norm_num

/-- C8 witness: previous velocity `(0.0000175, 0)` with only Left held
gives post-acceleration velocity `(0.00002, 0)`, above the cap, and the
integration step returns a vector of magnitude exactly `maxSpeed`. -/
theorem C8_witness :
    speed (updateVelocity (0.0000175, 0) {"ArrowLeft"}) = maxSpeed := by
  have hvec : accelerationVector {"ArrowLeft"} = ((1 : ℝ), (0 : ℝ)) := by
    have h1 : "ArrowLeft" ∈ ({"ArrowLeft"} : Finset String) := by decide
    have h2 : "ArrowRight" ∉ ({"ArrowLeft"} : Finset String) := by decide
    have h3 : "ArrowUp" ∉ ({"ArrowLeft"} : Finset String) := by decide
    have h4 : "ArrowDown" ∉ ({"ArrowLeft"} : Finset String) := by decide
    rw [accelerationVector, if_pos h1, if_neg h2, if_neg h3, if_neg h4]
    norm_num
  have hnorm : normalize ((1 : ℝ), (0 : ℝ)) = ((1 : ℝ), (0 : ℝ)) := by
    have hs : speed ((1 : ℝ), (0 : ℝ)) = 1 := by
      rw [speed_xAxis, abs_one]
    rw [normalize, if_pos (by rw [hs]; norm_num), hs]
    norm_num
  have happly : applyInput (0.0000175, 0) {"ArrowLeft"} = ((0.00002 : ℝ), (0 : ℝ)) := by
    simp only [applyInput, hvec, hnorm]
    rw [if_pos (by decide : 0 < ({"ArrowLeft"} : Finset String).card), acceleration]
    norm_num
  have hs2 : speed (applyInput (0.0000175, 0) {"ArrowLeft"}) = 0.00002 := by
    rw [happly, speed_xAxis, abs_of_pos (by norm_num : (0 : ℝ) < 0.00002)]
  refine (C8_cap_rescales (0.0000175, 0) {"ArrowLeft"} ?_ ?_).1
  · rw [hs2]
    norm_num [stopThreshold]
  · rw [hs2]
    norm_num [maxSpeed]

/-- C10: the key handlers are idempotent on the held-key set: a key-down
for a key already held leaves the set unchanged, and a key-up for a key
not held leaves the set unchanged. -/
theorem C10_handlers_idempotent (key : String) (keys : Finset String) :
    (key ∈ keys → handleKeyDown key keys = keys) ∧
    (key ∉ keys → handleKeyUp key keys = keys) := by
  constructor
  · intro h
    rw [handleKeyDown]
    split_ifs
    · exact Finset.insert_eq_self.mpr h
    · rfl
  · intro h
    rw [handleKeyUp]
    split_ifs
    · exact Finset.erase_eq_self.mpr h
    · rfl

/-- C10 witness: pressing ArrowUp while it is already held leaves the set
unchanged, and releasing ArrowDown while it is not held leaves the set
unchanged. -/
theorem C10_witness :
    handleKeyDown "ArrowUp" {"ArrowUp"} = {"ArrowUp"} ∧
    handleKeyUp "ArrowDown" {"ArrowUp"} = {"ArrowUp"} :=
  ⟨(C10_handlers_idempotent "ArrowUp" {"ArrowUp"}).1 (by decide),
   (C10_handlers_idempotent "ArrowDown" {"ArrowUp"}).2 (by decide)⟩

end DrivingGame
